import Mathlib

/-!
Verification of the PyAtBSA core BSA statistics engine.

This file gives a shallow embedding of the statistical core of the
repository (src/modules/core_bsa.py, with the parallel implementation in
src/src/modules/analysis.py) and proves or refutes the frozen claims about
it.

Conventions of the embedding:
- numpy float arrays are modelled as lists over the real numbers when the
  computation involves transcendental functions (logarithms), and over the
  rationals when the computation is purely rational (subsample fractions,
  tolerant comparisons, percentile bookkeeping);
- pandas DataFrames are modelled as lists of records, and the row slicing
  used by the source is translated with the usual Python slice semantics
  (slice a b l = (l.take b).drop a, negative indices counted from the end,
  with Nat truncated subtraction providing the clamping);
- the external LOESS routine (statsmodels lowess) is an opaque parameter:
  the claims under verification never depend on the fitted values
  themselves, only on lengths, alignment and data flow around the fit.
-/

namespace PyAtBSA

/-- Elementwise delta-SNP ratio, from FeatureProduction._delta_snp_array
(core_bsa.py lines 284-299): wtr / (wtr + wta) - mur / (mur + mua), with
no guard against a zero single-bulk total. -/
noncomputable def delta_snp (wtr wta mur mua : ℝ) : ℝ :=
  wtr / (wtr + wta) - mur / (mur + mua)

/-- Expected count paired with wtr, from core_bsa.py line 313: the numpy
line e1 = np.where(zero_mask, (wtr + mur) * (wtr + wta) / denominator, 0)
with zero_mask = (wtr + mur + wta + mua != 0). -/
noncomputable def g_expected1 (wtr wta mur mua : ℝ) : ℝ :=
  if wtr + mur + wta + mua = 0 then 0
  else (wtr + mur) * (wtr + wta) / (wtr + mur + wta + mua)

/-- Expected count paired with mur, from core_bsa.py line 314. -/
noncomputable def g_expected2 (wtr wta mur mua : ℝ) : ℝ :=
  if wtr + mur + wta + mua = 0 then 0
  else (wtr + mur) * (mur + mua) / (wtr + mur + wta + mua)

/-- Expected count paired with wta, from core_bsa.py line 315. -/
noncomputable def g_expected3 (wtr wta mur mua : ℝ) : ℝ :=
  if wtr + mur + wta + mua = 0 then 0
  else (wta + mua) * (wtr + wta) / (wtr + mur + wta + mua)

/-- Expected count paired with mua, from core_bsa.py line 316. -/
noncomputable def g_expected4 (wtr wta mur mua : ℝ) : ℝ :=
  if wtr + mur + wta + mua = 0 then 0
  else (wta + mua) * (mur + mua) / (wtr + mur + wta + mua)

/-- One log-likelihood-ratio term, from core_bsa.py lines 318-321: the
numpy line np.where(o / e > 0, 2 * o * np.log(o / e), 0.0).  Note that in
the source o / e can be inf when e = 0 and o > 0 (numpy junk value); in
that situation every use is masked by the product guard of
g_statistic_point below, and for all values the source actually returns
the real-division embedding agrees with the numpy computation. -/
noncomputable def g_llr (o e : ℝ) : ℝ :=
  if o / e > 0 then 2 * o * Real.log (o / e) else 0

/-- Elementwise G-statistic, from FeatureProduction._g_statistic_array
(core_bsa.py lines 301-323), final line: the whole statistic is forced to
0 whenever the product of the four expected counts is 0, otherwise it is
the sum of the four log-likelihood-ratio terms. -/
noncomputable def g_statistic_point (wtr wta mur mua : ℝ) : ℝ :=
  if g_expected1 wtr wta mur mua * g_expected2 wtr wta mur mua *
      g_expected3 wtr wta mur mua * g_expected4 wtr wta mur mua = 0 then 0
  else
    g_llr wtr (g_expected1 wtr wta mur mua) +
    g_llr mur (g_expected2 wtr wta mur mua) +
    g_llr wta (g_expected3 wtr wta mur mua) +
    g_llr mua (g_expected4 wtr wta mur mua)

/-- Elementwise map over four parallel arrays, the numpy broadcasting used
by _delta_snp_array and _g_statistic_array. -/
def map4 {α β : Type} (f : α → α → α → α → β) :
    List α → List α → List α → List α → List β
  | a :: as, b :: bs, c :: cs, d :: ds => f a b c d :: map4 f as bs cs ds
  | _, _, _, _ => []

/-- Array form of the G-statistic computation of core_bsa.py 301-323. -/
noncomputable def g_statistic_array (wtr wta mur mua : List ℝ) : List ℝ :=
  map4 g_statistic_point wtr wta mur mua

/-- Array form of the delta-SNP computation of core_bsa.py 284-299. -/
noncomputable def delta_snp_array (wtr wta mur mua : List ℝ) : List ℝ :=
  map4 delta_snp wtr wta mur mua

/-- Spec-side G-statistic, written from the words of claim C2: expected
counts are taken from the marginal totals of the 2x2 bulk-by-allele table
(row total of the bulk times column total of the allele over the grand
total), each term is 2 * observed * log(observed / expected) taken as 0
whenever observed / expected is at most 0, the whole statistic is 0 when
the grand total is 0, and it is forced to 0 whenever the product of the
four expected counts is 0. -/
noncomputable def g_statistic_claim (wtr wta mur mua : ℝ) : ℝ :=
  if wtr + wta + mur + mua = 0 then 0
  else
    if ((wtr + wta) * (wtr + mur) / (wtr + wta + mur + mua)) *
        ((wtr + wta) * (wta + mua) / (wtr + wta + mur + mua)) *
        ((mur + mua) * (wtr + mur) / (wtr + wta + mur + mua)) *
        ((mur + mua) * (wta + mua) / (wtr + wta + mur + mua)) = 0 then 0
    else
      (if wtr / ((wtr + wta) * (wtr + mur) / (wtr + wta + mur + mua)) ≤ 0
        then 0
        else 2 * wtr *
          Real.log (wtr / ((wtr + wta) * (wtr + mur) / (wtr + wta + mur + mua)))) +
      (if wta / ((wtr + wta) * (wta + mua) / (wtr + wta + mur + mua)) ≤ 0
        then 0
        else 2 * wta *
          Real.log (wta / ((wtr + wta) * (wta + mua) / (wtr + wta + mur + mua)))) +
      (if mur / ((mur + mua) * (wtr + mur) / (wtr + wta + mur + mua)) ≤ 0
        then 0
        else 2 * mur *
          Real.log (mur / ((mur + mua) * (wtr + mur) / (wtr + wta + mur + mua)))) +
      (if mua / ((mur + mua) * (wta + mua) / (wtr + wta + mur + mua)) ≤ 0
        then 0
        else 2 * mua *
          Real.log (mua / ((mur + mua) * (wta + mua) / (wtr + wta + mur + mua))))

theorem g_llr_eq_claim_term (o e : ℝ) :
    (if o / e ≤ 0 then 0 else 2 * o * Real.log (o / e)) = g_llr o e := by
  unfold g_llr
  rcases le_or_lt (o / e) 0 with h | h
  · rw [if_pos h, if_neg (not_lt.mpr h)]
  · rw [if_neg (not_le.mpr h), if_pos h]

theorem g_statistic_point_eq_claim (wtr wta mur mua : ℝ) :
    g_statistic_point wtr wta mur mua = g_statistic_claim wtr wta mur mua := by
  by_cases hN : wtr + wta + mur + mua = 0
  · have hN2 : wtr + mur + wta + mua = 0 := by linarith
    unfold g_statistic_claim g_statistic_point g_expected1 g_expected2
      g_expected3 g_expected4
    rw [if_pos hN, if_pos hN2, if_pos hN2, if_pos hN2, if_pos hN2]
    norm_num
  · have hN2 : ¬ (wtr + mur + wta + mua = 0) := by
      intro h
      exact hN (by linarith)
    have he1 : g_expected1 wtr wta mur mua =
        (wtr + wta) * (wtr + mur) / (wtr + wta + mur + mua) := by
      unfold g_expected1
      rw [if_neg hN2]
      ring_nf
    have he2 : g_expected2 wtr wta mur mua =
        (mur + mua) * (wtr + mur) / (wtr + wta + mur + mua) := by
      unfold g_expected2
      rw [if_neg hN2]
      ring_nf
    have he3 : g_expected3 wtr wta mur mua =
        (wtr + wta) * (wta + mua) / (wtr + wta + mur + mua) := by
      unfold g_expected3
      rw [if_neg hN2]
      ring_nf
    have he4 : g_expected4 wtr wta mur mua =
        (mur + mua) * (wta + mua) / (wtr + wta + mur + mua) := by
      unfold g_expected4
      rw [if_neg hN2]
      ring_nf
    unfold g_statistic_claim g_statistic_point
    rw [if_neg hN, he1, he2, he3, he4,
      g_llr_eq_claim_term wtr, g_llr_eq_claim_term wta,
      g_llr_eq_claim_term mur, g_llr_eq_claim_term mua]
    by_cases hp : ((wtr + wta) * (wtr + mur) / (wtr + wta + mur + mua)) *
        ((wtr + wta) * (wta + mua) / (wtr + wta + mur + mua)) *
        ((mur + mua) * (wtr + mur) / (wtr + wta + mur + mua)) *
        ((mur + mua) * (wta + mua) / (wtr + wta + mur + mua)) = 0
    · rw [if_pos hp, if_pos (by linear_combination hp)]
    · rw [if_neg hp, if_neg (fun h => hp (by linear_combination h))]
      ring

theorem g_llr_ge_two_mul_sub (o e : ℝ) (ho : 0 ≤ o) (he : 0 < e) :
    2 * (o - e) ≤ g_llr o e := by
  unfold g_llr
  rcases eq_or_lt_of_le ho with h0 | hpos
  · rw [← h0]
    norm_num
    linarith
  · have hq : o / e > 0 := div_pos hpos he
    rw [if_pos hq]
    have hlog : Real.log (e / o) ≤ e / o - 1 :=
      Real.log_le_sub_one_of_pos (div_pos he hpos)
    have hinv : Real.log (o / e) = - Real.log (e / o) := by
      rw [← Real.log_inv, inv_div]
    have hge : 1 - e / o ≤ Real.log (o / e) := by
      rw [hinv]
      linarith
    have hmul : 2 * o * (1 - e / o) ≤ 2 * o * Real.log (o / e) :=
      mul_le_mul_of_nonneg_left hge (by linarith)
    have hcancel : o * (e / o) = e := by
      field_simp
    nlinarith [hmul]

theorem g_expected_sum (wtr wta mur mua : ℝ)
    (hN : wtr + mur + wta + mua ≠ 0) :
    g_expected1 wtr wta mur mua + g_expected2 wtr wta mur mua +
      g_expected3 wtr wta mur mua + g_expected4 wtr wta mur mua =
      wtr + mur + wta + mua := by
  unfold g_expected1 g_expected2 g_expected3 g_expected4
  rw [if_neg hN, if_neg hN, if_neg hN, if_neg hN]
  field_simp
  ring

theorem g_statistic_point_nonneg (wtr wta mur mua : ℝ)
    (h1 : 0 ≤ wtr) (h2 : 0 ≤ wta) (h3 : 0 ≤ mur) (h4 : 0 ≤ mua) :
    0 ≤ g_statistic_point wtr wta mur mua := by
  unfold g_statistic_point
  by_cases hp : g_expected1 wtr wta mur mua * g_expected2 wtr wta mur mua *
      g_expected3 wtr wta mur mua * g_expected4 wtr wta mur mua = 0
  · rw [if_pos hp]
  · rw [if_neg hp]
    have hN : wtr + mur + wta + mua ≠ 0 := by
      intro h
      apply hp
      unfold g_expected1
      rw [if_pos h]
      ring
    have hNpos : 0 < wtr + mur + wta + mua :=
      lt_of_le_of_ne (by linarith) (Ne.symm hN)
    have hnn1 : 0 ≤ g_expected1 wtr wta mur mua := by
      unfold g_expected1
      rw [if_neg hN]
      positivity
    have hnn2 : 0 ≤ g_expected2 wtr wta mur mua := by
      unfold g_expected2
      rw [if_neg hN]
      positivity
    have hnn3 : 0 ≤ g_expected3 wtr wta mur mua := by
      unfold g_expected3
      rw [if_neg hN]
      positivity
    have hnn4 : 0 ≤ g_expected4 wtr wta mur mua := by
      unfold g_expected4
      rw [if_neg hN]
      positivity
    have hne1 : g_expected1 wtr wta mur mua ≠ 0 := by
      intro h
      apply hp
      rw [h]
      ring
    have hne2 : g_expected2 wtr wta mur mua ≠ 0 := by
      intro h
      apply hp
      rw [h]
      ring
    have hne3 : g_expected3 wtr wta mur mua ≠ 0 := by
      intro h
      apply hp
      rw [h]
      ring
    have hne4 : g_expected4 wtr wta mur mua ≠ 0 := by
      intro h
      apply hp
      rw [h]
      ring
    have hb1 := g_llr_ge_two_mul_sub wtr _ h1 (lt_of_le_of_ne hnn1 (Ne.symm hne1))
    have hb2 := g_llr_ge_two_mul_sub mur _ h3 (lt_of_le_of_ne hnn2 (Ne.symm hne2))
    have hb3 := g_llr_ge_two_mul_sub wta _ h2 (lt_of_le_of_ne hnn3 (Ne.symm hne3))
    have hb4 := g_llr_ge_two_mul_sub mua _ h4 (lt_of_le_of_ne hnn4 (Ne.symm hne4))
    have hsum := g_expected_sum wtr wta mur mua hN
    linarith

theorem mem_map4 {α β : Type} (f : α → α → α → α → β)
    (as bs cs ds : List α) (x : β) (hx : x ∈ map4 f as bs cs ds) :
    ∃ a ∈ as, ∃ b ∈ bs, ∃ c ∈ cs, ∃ d ∈ ds, x = f a b c d := by
  induction as generalizing bs cs ds with
  | nil => simp [map4] at hx
  | cons a as ih =>
    cases bs with
    | nil => simp [map4] at hx
    | cons b bs =>
      cases cs with
      | nil => simp [map4] at hx
      | cons c cs =>
        cases ds with
        | nil => simp [map4] at hx
        | cons d ds =>
          rcases List.mem_cons.mp hx with h | h
          · subst h
            exact ⟨a, by simp, b, by simp, c, by simp, d, by simp, rfl⟩
          · obtain ⟨a2, ha, b2, hb, c2, hc, d2, hd, hx2⟩ := ih bs cs ds h
            exact ⟨a2, by simp [ha], b2, by simp [hb], c2, by simp [hc],
              d2, by simp [hd], hx2⟩

theorem map4_getD (f : ℝ → ℝ → ℝ → ℝ → ℝ) (as bs cs ds : List ℝ) (i : ℕ)
    (ha : i < as.length) (hb : i < bs.length)
    (hc : i < cs.length) (hd : i < ds.length) :
    (map4 f as bs cs ds).getD i 0 =
      f (as.getD i 0) (bs.getD i 0) (cs.getD i 0) (ds.getD i 0) := by
  induction as generalizing bs cs ds i with
  | nil => simp at ha
  | cons a as ih =>
    cases bs with
    | nil => simp at hb
    | cons b bs =>
      cases cs with
      | nil => simp at hc
      | cons c cs =>
        cases ds with
        | nil => simp at hd
        | cons d ds =>
          cases i with
          | zero => simp [map4]
          | succ i =>
            simp only [map4, List.getD_cons_succ]
            exact ih bs cs ds i (by simpa using ha) (by simpa using hb)
              (by simpa using hc) (by simpa using hd)

/-- C2: for four equal-length vectors of non-negative read-depth counts,
the G-statistic at each index equals the claim formulation: the sum of the
four terms 2 * observed * log(observed / expected) with expected counts
from the marginal totals of the 2x2 bulk-by-allele table, a term being 0
whenever observed / expected is at most 0, the whole statistic 0 when the
grand total is 0, and forced to 0 whenever the product of the four
expected counts is 0. -/
theorem g_statistic_array_matches_claim (wtr wta mur mua : List ℝ)
    (_hnn : (∀ x ∈ wtr, 0 ≤ x) ∧ (∀ x ∈ wta, 0 ≤ x) ∧
      (∀ x ∈ mur, 0 ≤ x) ∧ (∀ x ∈ mua, 0 ≤ x))
    (hb : wta.length = wtr.length) (hc : mur.length = wtr.length)
    (hd : mua.length = wtr.length) (i : ℕ) (hi : i < wtr.length) :
    (g_statistic_array wtr wta mur mua).getD i 0 =
      g_statistic_claim (wtr.getD i 0) (wta.getD i 0)
        (mur.getD i 0) (mua.getD i 0) := by
  unfold g_statistic_array
  rw [map4_getD _ _ _ _ _ _ hi (by omega) (by omega) (by omega)]
  exact g_statistic_point_eq_claim _ _ _ _

/-- Witness for C2 at a concrete input (row 1 of scenario-A style data,
with the mu bulk fully alternate so that an expected count vanishes). -/
theorem g_statistic_array_matches_claim_witness :
    (g_statistic_array [10, 20] [10, 0] [5, 0] [15, 20]).getD 1 0 =
      g_statistic_claim ([(10 : ℝ), 20].getD 1 0) ([10, 0].getD 1 0)
        ([5, 0].getD 1 0) ([15, 20].getD 1 0) :=
  g_statistic_array_matches_claim [10, 20] [10, 0] [5, 0] [15, 20]
    ⟨by intro x hx; simp at hx; rcases hx with h | h <;> norm_num [h],
     by intro x hx; simp at hx; rcases hx with h | h <;> norm_num [h],
     by intro x hx; simp at hx; rcases hx with h | h <;> norm_num [h],
     by intro x hx; simp at hx; rcases hx with h | h <;> norm_num [h]⟩
    rfl rfl rfl 1 (by norm_num)

/-- C6: every value returned by the G-statistic computation on
non-negative inputs is non-negative. -/
theorem g_statistic_array_nonneg (wtr wta mur mua : List ℝ)
    (h1 : ∀ x ∈ wtr, 0 ≤ x) (h2 : ∀ x ∈ wta, 0 ≤ x)
    (h3 : ∀ x ∈ mur, 0 ≤ x) (h4 : ∀ x ∈ mua, 0 ≤ x) :
    ∀ y ∈ g_statistic_array wtr wta mur mua, 0 ≤ y := by
  intro y hy
  obtain ⟨a, ha, b, hb, c, hc, d, hd, he⟩ :=
    mem_map4 g_statistic_point wtr wta mur mua y hy
  rw [he]
  exact g_statistic_point_nonneg a b c d (h1 a ha) (h2 b hb) (h3 c hc) (h4 d hd)

/-- Witness for C6 at a concrete input. -/
theorem g_statistic_array_nonneg_witness :
    0 ≤ g_statistic_point 20 0 0 20 :=
  g_statistic_array_nonneg [20] [0] [0] [20]
    (by intro x hx; simp at hx; norm_num [hx])
    (by intro x hx; simp at hx; norm_num [hx])
    (by intro x hx; simp at hx; norm_num [hx])
    (by intro x hx; simp at hx; norm_num [hx])
    (g_statistic_point 20 0 0 20) (by simp [g_statistic_array, map4])

/-- C5: for every record the ratio equals
wt_ref / (wt_ref + wt_alt) - mu_ref / (mu_ref + mu_alt), computed with no
guard against a single-bulk zero total, and whenever both bulk totals are
positive the resulting ratio lies in the closed interval from -1 to 1. -/
theorem delta_snp_formula_and_bounds (wtr wta mur mua : ℝ) :
    delta_snp wtr wta mur mua = wtr / (wtr + wta) - mur / (mur + mua) ∧
    (0 ≤ wtr → 0 ≤ wta → 0 ≤ mur → 0 ≤ mua →
      0 < wtr + wta → 0 < mur + mua →
      -1 ≤ delta_snp wtr wta mur mua ∧ delta_snp wtr wta mur mua ≤ 1) := by
  constructor
  · rfl
  · intro h1 h2 h3 h4 hwt hmu
    unfold delta_snp
    have ha1 : 0 ≤ wtr / (wtr + wta) := div_nonneg h1 (le_of_lt hwt)
    have ha2 : wtr / (wtr + wta) ≤ 1 := (div_le_one hwt).mpr (by linarith)
    have hb1 : 0 ≤ mur / (mur + mua) := div_nonneg h3 (le_of_lt hmu)
    have hb2 : mur / (mur + mua) ≤ 1 := (div_le_one hmu).mpr (by linarith)
    constructor <;> linarith

/-- Witness for C5 at a concrete input with both bulk totals positive. -/
theorem delta_snp_formula_and_bounds_witness :
    -1 ≤ delta_snp 3 1 0 2 ∧ delta_snp 3 1 0 2 ≤ 1 :=
  (delta_snp_formula_and_bounds 3 1 0 2).2 (by norm_num) (by norm_num)
    (by norm_num) (by norm_num) (by norm_num) (by norm_num)

/-- Mirrored-edge padding used by _fit_single_chr (core_bsa.py lines
389-410) and smooth_single_chr (analysis.py lines 160-184).  The source
pads both the delta list and the facet rows as
rev[-eb:-1] ++ data ++ rev[1:eb] where rev is the reversed data; with the
Python slice semantics slice a b l = (l.take b).drop a this is the
expression below.  eb is smooth_edges_bounds. -/
def mirror_pad {α : Type} (l : List α) (eb : ℕ) : List α :=
  ((l.reverse.take (l.length - 1)).drop (l.length - eb)) ++ l ++
    ((l.reverse.take eb).drop 1)

/-- The final trim of _fit_single_chr (core_bsa.py line 433):
df_chr[eb:-eb], the Python slice from eb to length - eb. -/
def trim_edges {α : Type} (l : List α) (eb : ℕ) : List α :=
  (l.take (l.length - eb)).drop eb

/-- Row flow of _fit_single_chr: pad the facet rows, fit (the fit appends
columns and never changes the row count, so it is the identity on the row
skeleton), then trim. -/
def fit_single_chr_rows {α : Type} (rows : List α) (eb : ℕ) : List α :=
  trim_edges (mirror_pad rows eb) eb

/-- Helper for the delta list of core_bsa.py lines 392-394: running
differences against the previous position. -/
def delta_seq_aux (prev : ℤ) : List ℤ → List ℤ
  | [] => []
  | q :: qs => (q - prev) :: delta_seq_aux q qs

/-- The delta list of core_bsa.py lines 392-394: deltas[0] = pos[0] and
deltas[i] = pos[i] - pos[i-1] for i > 0. -/
def delta_seq : List ℤ → List ℤ
  | [] => []
  | p :: ps => p :: delta_seq_aux p ps

/-- Helper for psuedo_pos, accumulating the running sum. -/
def pseudo_pos_aux (acc : ℤ) : List ℤ → List ℤ
  | [] => []
  | d :: ds => (acc + d) :: pseudo_pos_aux (acc + d) ds

/-- The psuedo_pos loop of core_bsa.py lines 399-405: the first entry is
0 and every later entry adds the current mirrored delta to the previous
pseudo position. -/
def pseudo_pos : List ℤ → List ℤ
  | [] => []
  | _ :: ds => 0 :: pseudo_pos_aux 0 ds

/-- Padding as worded by claim C3:
reverse(deltas[-(edge_bound-1):]) ++ deltas ++ reverse(deltas[1:edge_bound]).
This is the claimed construction, kept separate so it can be compared
against the construction the source actually performs. -/
def claim_mirror_pad {α : Type} (l : List α) (eb : ℕ) : List α :=
  (l.drop (l.length - (eb - 1))).reverse ++ l ++ ((l.take eb).drop 1).reverse

theorem mirror_pad_decomp {α : Type} (l : List α) (eb : ℕ)
    (hb : 1 ≤ eb) (hn : eb ≤ l.length) :
    mirror_pad l eb =
      ((l.take eb).drop 1).reverse ++ l ++
        ((l.take (l.length - 1)).drop (l.length - eb)).reverse := by
  unfold mirror_pad
  have hpre : (l.reverse.take (l.length - 1)).drop (l.length - eb) =
      ((l.take eb).drop 1).reverse := by
    rw [List.take_reverse]
    have h1 : l.length - (l.length - 1) = 1 := by omega
    rw [h1, List.drop_reverse]
    have h2 : (l.drop 1).length - (l.length - eb) = eb - 1 := by
      rw [List.length_drop]
      omega
    rw [h2, List.drop_take]
  have hsuf : (l.reverse.take eb).drop 1 =
      ((l.take (l.length - 1)).drop (l.length - eb)).reverse := by
    rw [List.take_reverse, List.drop_reverse]
    have h1 : (l.drop (l.length - eb)).length - 1 = eb - 1 := by
      rw [List.length_drop]
      omega
    rw [h1, List.drop_take]
    have h2 : l.length - 1 - (l.length - eb) = eb - 1 := by omega
    rw [h2]
  rw [hpre, hsuf]

theorem mirror_pad_length {α : Type} (l : List α) (eb : ℕ)
    (hb : 1 ≤ eb) (hn : eb ≤ l.length) :
    (mirror_pad l eb).length = l.length + 2 * (eb - 1) := by
  unfold mirror_pad
  simp only [List.length_append, List.length_drop, List.length_take,
    List.length_reverse]
  omega

theorem take_append_middle {α : Type} (A M B : List α) (k : ℕ)
    (h1 : A.length ≤ k) (h2 : k ≤ A.length + M.length) :
    (A ++ M ++ B).take k = A ++ M.take (k - A.length) := by
  rw [List.take_append_eq_append_take, List.take_append_eq_append_take,
    List.take_of_length_le h1]
  have h3 : k - (A ++ M).length = 0 := by
    rw [List.length_append]
    omega
  rw [h3, List.take_zero, List.append_nil]

theorem drop_append_left {α : Type} (A M : List α) (k : ℕ)
    (h1 : A.length ≤ k) :
    (A ++ M).drop k = M.drop (k - A.length) := by
  rw [List.drop_append_eq_append_drop, List.drop_of_length_le h1,
    List.nil_append]

/-- C1: the source claims to discard exactly the mirrored padding, but the
padding has edge_bound - 1 rows per side while the final slice
df_chr[eb:-eb] discards edge_bound rows per side; on every facet with more
than 2 * edge_bound rows the result is therefore the interior of the facet
with the first and the last original row dropped, of length n - 2 rather
than n. -/
theorem fit_single_chr_keeps_strict_interior {α : Type} (rows : List α)
    (eb : ℕ) (hb : 1 ≤ eb) (hn : 2 * eb < rows.length) :
    fit_single_chr_rows rows eb = (rows.take (rows.length - 1)).drop 1 ∧
      (fit_single_chr_rows rows eb).length = rows.length - 2 := by
  have hn2 : eb ≤ rows.length := by omega
  have hAlen : (((rows.take eb).drop 1).reverse).length = eb - 1 := by
    simp only [List.length_reverse, List.length_drop, List.length_take]
    omega
  have heq : fit_single_chr_rows rows eb =
      (rows.take (rows.length - 1)).drop 1 := by
    unfold fit_single_chr_rows trim_edges
    rw [mirror_pad_length rows eb hb hn2, mirror_pad_decomp rows eb hb hn2]
    rw [take_append_middle _ _ _ _ (by rw [hAlen]; omega) (by rw [hAlen]; omega)]
    rw [drop_append_left _ _ _ (by rw [hAlen]; omega)]
    rw [hAlen]
    have e1 : rows.length + 2 * (eb - 1) - eb - (eb - 1) = rows.length - 1 := by
      omega
    have e2 : eb - (eb - 1) = 1 := by omega
    rw [e1, e2]
  refine ⟨heq, ?_⟩
  rw [heq]
  simp only [List.length_drop, List.length_take]
  omega

/-- Witness for C1 at a concrete facet of 50 rows with the default
edge bound 15: the smoothed facet is the 48-row strict interior. -/
theorem fit_single_chr_keeps_strict_interior_witness :
    fit_single_chr_rows (List.range 50) 15 =
      ((List.range 50).take ((List.range 50).length - 1)).drop 1 ∧
      (fit_single_chr_rows (List.range 50) 15).length =
        (List.range 50).length - 2 :=
  fit_single_chr_keeps_strict_interior (List.range 50) 15 (by norm_num)
    (by simp)

theorem delta_seq_aux_length (p : ℤ) (l : List ℤ) :
    (delta_seq_aux p l).length = l.length := by
  induction l generalizing p with
  | nil => rfl
  | cons q qs ih => simp [delta_seq_aux, ih]

theorem delta_seq_length (l : List ℤ) : (delta_seq l).length = l.length := by
  cases l with
  | nil => rfl
  | cons p ps => simp [delta_seq, delta_seq_aux_length]

theorem pseudo_pos_aux_length (acc : ℤ) (l : List ℤ) :
    (pseudo_pos_aux acc l).length = l.length := by
  induction l generalizing acc with
  | nil => rfl
  | cons d ds ih => simp [pseudo_pos_aux, ih]

theorem pseudo_pos_length (l : List ℤ) : (pseudo_pos l).length = l.length := by
  cases l with
  | nil => rfl
  | cons d ds => simp [pseudo_pos, pseudo_pos_aux_length]

theorem delta_seq_aux_nonneg (p : ℤ) (l : List ℤ)
    (h : List.Chain' (fun a b => a ≤ b) (p :: l)) :
    ∀ d ∈ delta_seq_aux p l, 0 ≤ d := by
  induction l generalizing p with
  | nil => intro d hd; simp [delta_seq_aux] at hd
  | cons q qs ih =>
    intro d hd
    rcases List.chain'_cons.mp h with ⟨hpq, hrest⟩
    rcases List.mem_cons.mp hd with h1 | h1
    · rw [h1]; omega
    · exact ih q hrest d h1

theorem delta_seq_nonneg (pos : List ℤ)
    (hs : List.Chain' (fun a b => a ≤ b) pos)
    (h0 : ∀ x ∈ pos.take 1, 0 ≤ x) :
    ∀ d ∈ delta_seq pos, 0 ≤ d := by
  cases pos with
  | nil => intro d hd; simp [delta_seq] at hd
  | cons p ps =>
    intro d hd
    rcases List.mem_cons.mp hd with h1 | h1
    · rw [h1]
      exact h0 p (by simp)
    · exact delta_seq_aux_nonneg p ps hs d h1

theorem mem_mirror_pad {α : Type} (l : List α) (eb : ℕ) (x : α)
    (hx : x ∈ mirror_pad l eb) : x ∈ l := by
  unfold mirror_pad at hx
  rcases List.mem_append.mp hx with h | h
  · rcases List.mem_append.mp h with h2 | h2
    · exact List.mem_reverse.mp
        (List.mem_of_mem_take (List.mem_of_mem_drop h2))
    · exact h2
  · exact List.mem_reverse.mp (List.mem_of_mem_take (List.mem_of_mem_drop h))

theorem pseudo_pos_aux_chain (acc : ℤ) (l : List ℤ)
    (h : ∀ d ∈ l, 0 ≤ d) :
    List.Chain' (fun a b => a ≤ b) (acc :: pseudo_pos_aux acc l) := by
  induction l generalizing acc with
  | nil => exact List.chain'_singleton acc
  | cons d ds ih =>
    refine List.chain'_cons.mpr ⟨?_, ?_⟩
    · have := h d (by simp)
      omega
    · exact ih (acc + d) (fun e he => h e (List.mem_cons_of_mem _ he))

theorem pseudo_pos_chain (l : List ℤ) (h : ∀ d ∈ l, 0 ≤ d) :
    List.Chain' (fun a b => a ≤ b) (pseudo_pos l) := by
  cases l with
  | nil => exact List.chain'_nil
  | cons d ds =>
    exact pseudo_pos_aux_chain 0 ds (fun e he => h e (List.mem_cons_of_mem _ he))

/-- C3 counterexample: on the facet with positions 5, 6, 8, 11, 15 and
edge bound 3, the padded delta sequence built by the source is not the
sequence claimed (the claim swaps the two mirrored ends and misplaces the
end window by one). -/
theorem padded_deltas_claim_counterexample :
    mirror_pad (delta_seq [5, 6, 8, 11, 15]) 3 ≠
      claim_mirror_pad (delta_seq [5, 6, 8, 11, 15]) 3 := by
  decide

/-- C3 amended: the padded delta sequence equals
reverse(deltas[1:edge_bound]) ++ deltas ++ reverse(deltas[-edge_bound:-1])
(mirror of the start at the start and of the end at the end, each of
length edge_bound - 1, excluding the boundary entries); the padded value
arrays are built the same way from the facet rows; and the pseudo-position
axis (prefix sums with first entry 0) has length n + 2(edge_bound - 1) and
is monotonically non-decreasing for a position-sorted facet. -/
theorem fit_padding_construction {α : Type} (pos : List ℤ) (rows : List α)
    (eb : ℕ) (hb : 1 ≤ eb) (hp : eb ≤ pos.length) (hr : eb ≤ rows.length)
    (hsort : List.Chain' (fun a b => a ≤ b) pos)
    (h0 : ∀ x ∈ pos.take 1, 0 ≤ x) :
    mirror_pad (delta_seq pos) eb =
      (((delta_seq pos).take eb).drop 1).reverse ++ delta_seq pos ++
        (((delta_seq pos).take (pos.length - 1)).drop
          (pos.length - eb)).reverse ∧
    mirror_pad rows eb =
      ((rows.take eb).drop 1).reverse ++ rows ++
        ((rows.take (rows.length - 1)).drop (rows.length - eb)).reverse ∧
    (pseudo_pos (mirror_pad (delta_seq pos) eb)).length =
      pos.length + 2 * (eb - 1) ∧
    List.Chain' (fun a b => a ≤ b)
      (pseudo_pos (mirror_pad (delta_seq pos) eb)) := by
  have hdl : (delta_seq pos).length = pos.length := delta_seq_length pos
  refine ⟨?_, mirror_pad_decomp rows eb hb hr, ?_, ?_⟩
  · have hdec := mirror_pad_decomp (delta_seq pos) eb hb (by rw [hdl]; exact hp)
    rw [hdec, hdl]
  · rw [pseudo_pos_length, mirror_pad_length _ _ hb (by rw [hdl]; exact hp), hdl]
  · apply pseudo_pos_chain
    intro d hd
    exact delta_seq_nonneg pos hsort h0 d (mem_mirror_pad _ _ _ hd)

/-- Witness for the amended C3 at a concrete sorted facet. -/
theorem fit_padding_construction_witness :
    mirror_pad (delta_seq [5, 6, 8, 11, 15]) 3 =
      (((delta_seq [5, 6, 8, 11, 15]).take 3).drop 1).reverse ++
        delta_seq [5, 6, 8, 11, 15] ++
        (((delta_seq [5, 6, 8, 11, 15]).take
            (([5, 6, 8, 11, 15] : List ℤ).length - 1)).drop
          (([5, 6, 8, 11, 15] : List ℤ).length - 3)).reverse ∧
    mirror_pad [(10 : ℤ), 20, 30, 40, 50] 3 =
      (([(10 : ℤ), 20, 30, 40, 50].take 3).drop 1).reverse ++
        [(10 : ℤ), 20, 30, 40, 50] ++
        (([(10 : ℤ), 20, 30, 40, 50].take
            ([(10 : ℤ), 20, 30, 40, 50].length - 1)).drop
          ([(10 : ℤ), 20, 30, 40, 50].length - 3)).reverse ∧
    (pseudo_pos (mirror_pad (delta_seq [5, 6, 8, 11, 15]) 3)).length =
      ([5, 6, 8, 11, 15] : List ℤ).length + 2 * (3 - 1) ∧
    List.Chain' (fun a b => a ≤ b)
      (pseudo_pos (mirror_pad (delta_seq [5, 6, 8, 11, 15]) 3)) :=
  fit_padding_construction [5, 6, 8, 11, 15] [(10 : ℤ), 20, 30, 40, 50] 3
    (by norm_num) (by simp) (by simp)
    (by norm_num [List.chain'_cons, List.chain'_singleton]) (by decide)

/-- Subsample fraction of calculate_empirical_cutoffs (core_bsa.py lines
540-549): 0.05 above 20000 variants, 1 below 1000, and np.interp between
the points (1000, 1) and (20000, 0.05) otherwise. -/
def subsample_frac (n : ℕ) : ℚ :=
  if n > 20000 then 1 / 20
  else if n < 1000 then 1
  else 1 + ((n : ℚ) - 1000) * (1 / 20 - 1) / (20000 - 1000)

/-- Spec-side straight-line interpolation through (x0, y0) and (x1, y1),
the wording of claim C8. -/
def linear_interp (x0 y0 x1 y1 x : ℚ) : ℚ :=
  y0 + (x - x0) * (y1 - y0) / (x1 - x0)

/-- C8: the bootstrap subsample fraction is 0.05 for more than 20000
variants, 1.0 for fewer than 1000, and otherwise the linear interpolation
between 1.0 at n = 1000 and 0.05 at n = 20000. -/
theorem subsample_frac_cases (n : ℕ) :
    (20000 < n → subsample_frac n = 1 / 20) ∧
    (n < 1000 → subsample_frac n = 1) ∧
    (1000 ≤ n → n ≤ 20000 →
      subsample_frac n = linear_interp 1000 1 20000 (1 / 20) (n : ℚ)) := by
  unfold subsample_frac linear_interp
  refine ⟨?_, ?_, ?_⟩
  · intro h
    rw [if_pos h]
  · intro h
    rw [if_neg (by omega), if_pos h]
  · intro h1 h2
    rw [if_neg (by omega), if_neg (by omega)]

/-- Witness for C8 at concrete counts in each regime. -/
theorem subsample_frac_cases_witness :
    subsample_frac 25000 = 1 / 20 ∧ subsample_frac 500 = 1 ∧
      subsample_frac 10000 = linear_interp 1000 1 20000 (1 / 20) (10000 : ℚ) :=
  ⟨(subsample_frac_cases 25000).1 (by norm_num),
   (subsample_frac_cases 500).2.1 (by norm_num),
   (subsample_frac_cases 10000).2.2 (by norm_num) (by norm_num)⟩

/-- Result vectors of one bootstrap trial, as pooled by
calculate_empirical_cutoffs (core_bsa.py lines 562-569): per-trial
G-statistics, ratios, ratio-scaled G values and smoothed ratio-scaled G
values. -/
structure TrialResult where
  gs : List ℚ
  ratio : List ℚ
  rsg : List ℚ
  rsgY : List ℚ

/-- Linear-interpolation percentile of a sorted sample, the default numpy
percentile method used at core_bsa.py lines 572-575. -/
def sortedPercentile (q : ℚ) (s : List ℚ) : ℚ :=
  if s = [] then 0
  else
    s.getD (Int.toNat ⌊q * ((s.length : ℚ) - 1) / 100⌋) 0 +
      (q * ((s.length : ℚ) - 1) / 100 -
        ((⌊q * ((s.length : ℚ) - 1) / 100⌋ : ℤ) : ℚ)) *
      (s.getD (Int.toNat ⌊q * ((s.length : ℚ) - 1) / 100⌋ + 1)
          (s.getD (Int.toNat ⌊q * ((s.length : ℚ) - 1) / 100⌋) 0) -
        s.getD (Int.toNat ⌊q * ((s.length : ℚ) - 1) / 100⌋) 0)

/-- np.percentile over an unsorted pooled sample. -/
def npPercentile (q : ℚ) (xs : List ℚ) : ℚ :=
  sortedPercentile q (List.insertionSort (fun a b => a ≤ b) xs)

/-- The four cutoffs of core_bsa.py lines 571-575: 95th percentile of the
pooled G-statistics, ratios and ratio-scaled G values, 99.99th percentile
of the pooled smoothed ratio-scaled G values. -/
def computeCutoffs (results : List TrialResult) : ℚ × ℚ × ℚ × ℚ :=
  (npPercentile 95 (results.map TrialResult.gs).flatten,
   npPercentile 95 (results.map TrialResult.ratio).flatten,
   npPercentile 95 (results.map TrialResult.rsg).flatten,
   npPercentile (9999 / 100) (results.map TrialResult.rsgY).flatten)

theorem insertionSort_eq_of_perm {xs ys : List ℚ} (h : xs.Perm ys) :
    List.insertionSort (fun a b => a ≤ b) xs =
      List.insertionSort (fun a b => a ≤ b) ys :=
  List.eq_of_perm_of_sorted
    ((List.perm_insertionSort _ xs).trans
      (h.trans (List.perm_insertionSort _ ys).symm))
    (List.sorted_insertionSort _ xs) (List.sorted_insertionSort _ ys)

theorem npPercentile_congr_perm (q : ℚ) {xs ys : List ℚ} (h : xs.Perm ys) :
    npPercentile q xs = npPercentile q ys := by
  unfold npPercentile
  rw [insertionSort_eq_of_perm h]

/-- C7: for a fixed multiset of per-trial result vectors the four cutoffs
are identical under any permutation of the order the trials are pooled
in. -/
theorem computeCutoffs_perm_invariant (ts us : List TrialResult)
    (h : ts.Perm us) : computeCutoffs ts = computeCutoffs us := by
  unfold computeCutoffs
  rw [npPercentile_congr_perm 95 ((h.map TrialResult.gs).flatten),
    npPercentile_congr_perm 95 ((h.map TrialResult.ratio).flatten),
    npPercentile_congr_perm 95 ((h.map TrialResult.rsg).flatten),
    npPercentile_congr_perm (9999 / 100) ((h.map TrialResult.rsgY).flatten)]

/-- Witness for C7: swapping two concrete trials leaves the cutoffs
unchanged. -/
theorem computeCutoffs_perm_invariant_witness :
    computeCutoffs [⟨[1, 3], [0], [2], [5]⟩, ⟨[4], [1 / 2], [0], [7]⟩] =
      computeCutoffs [⟨[4], [1 / 2], [0], [7]⟩, ⟨[1, 3], [0], [2], [5]⟩] :=
  computeCutoffs_perm_invariant
    [⟨[1, 3], [0], [2], [5]⟩, ⟨[4], [1 / 2], [0], [7]⟩]
    [⟨[4], [1 / 2], [0], [7]⟩, ⟨[1, 3], [0], [2], [5]⟩]
    (List.Perm.swap _ _ _)

/-- Pool.starmap over fallible trials (core_bsa.py lines 563-564): if any
task raises, the whole map raises and no list of results is produced. -/
def pool_starmap {ε α : Type} : List (Except ε α) → Except ε (List α)
  | [] => Except.ok []
  | Except.error e :: _ => Except.error e
  | Except.ok a :: rest =>
    match pool_starmap rest with
    | Except.error e => Except.error e
    | Except.ok as => Except.ok (a :: as)

/-- Modelled from the spec: LogHandler.fail of modules.utilities_logging,
the logger core_bsa.py imports, is not under src (src only carries the
parallel implementation src/src/modules/config.py, whose LogHandler.fail
at lines 108-115 ends in quit()).  Per spec section 7 every core error is
fatal to the current analysis; fail is therefore modelled as terminating
with the error and producing no result. -/
def log_fail {ε α : Type} (e : ε) : Except ε α := Except.error e

/-- The trial-gathering and cutoff step of calculate_empirical_cutoffs
(core_bsa.py lines 562-587): gather all trials, then take percentiles.
The except branch calls LogHandler.fail, which terminates the analysis:
no cutoff tuple is produced. -/
def calculate_empirical_cutoffs_run {ε : Type}
    (trials : List (Except ε TrialResult)) : Except ε (ℚ × ℚ × ℚ × ℚ) :=
  match pool_starmap trials with
  | Except.error e => log_fail e
  | Except.ok results => Except.ok (computeCutoffs results)

theorem pool_starmap_error {ε α : Type} (trials : List (Except ε α)) (e : ε)
    (he : Except.error e ∈ trials) :
    ∃ e2, pool_starmap trials = Except.error e2 := by
  induction trials with
  | nil => simp at he
  | cons t rest ih =>
    cases t with
    | error e3 => exact ⟨e3, rfl⟩
    | ok a =>
      rcases List.mem_cons.mp he with h | h
      · simp at h
      · obtain ⟨e2, he2⟩ := ih h
        refine ⟨e2, ?_⟩
        simp [pool_starmap, he2]

/-- C4: if any single bootstrap trial fails, the whole cutoff estimate is
aborted: the computation never returns a cutoff tuple built from the
remaining successful trials. -/
theorem trial_failure_aborts_cutoffs {ε : Type}
    (trials : List (Except ε TrialResult)) (e : ε)
    (he : Except.error e ∈ trials) (c : ℚ × ℚ × ℚ × ℚ) :
    calculate_empirical_cutoffs_run trials ≠ Except.ok c := by
  obtain ⟨e2, he2⟩ := pool_starmap_error trials e he
  simp [calculate_empirical_cutoffs_run, he2, log_fail]

/-- Witness for C4: one failed trial among two aborts the estimate. -/
theorem trial_failure_aborts_cutoffs_witness :
    calculate_empirical_cutoffs_run
        [Except.ok ⟨[1], [0], [0], [0]⟩, Except.error "trial failed"] ≠
      Except.ok (0, 0, 0, 0) :=
  trial_failure_aborts_cutoffs
    [Except.ok ⟨[1], [0], [0], [0]⟩, Except.error "trial failed"]
    "trial failed" (by simp) (0, 0, 0, 0)

/-- One row of the variant table as consumed by
calculate_empirical_cutoffs. -/
structure VariantRow where
  chrom : String
  pos : ℝ
  wt_ref : ℝ
  wt_alt : ℝ
  mu_ref : ℝ
  mu_alt : ℝ

/-- DataFrame.sample modelled by an index draw: the randomness of one
trial is the list of row indices each of the three independent draws
selects. -/
def sample_by_idx {α : Type} (d : α) (col : List α) (idx : List ℕ) : List α :=
  idx.map (fun i => col.getD i d)

/-- One bootstrap trial, from FeatureProduction._empirical_cutoff
(core_bsa.py lines 489-528): independently resample the position column
and the wt and mu read-depth pairs, recompute the G-statistic, ratio and
ratio-scaled G on the synthetic rows, and smooth the ratio-scaled G
against the resampled positions with the external LOESS routine sf. -/
noncomputable def empirical_cutoff_trial (sf : List ℝ → List ℝ → List ℝ)
    (posCol : List ℝ) (wtCol muCol : List (ℝ × ℝ))
    (rd : List ℕ × List ℕ × List ℕ) :
    List ℝ × List ℝ × List ℝ × List ℝ :=
  let smPos := sample_by_idx 0 posCol rd.1
  let wtS := sample_by_idx (0, 0) wtCol rd.2.1
  let muS := sample_by_idx (0, 0) muCol rd.2.2
  let smGstat := g_statistic_array (wtS.map Prod.fst) (wtS.map Prod.snd)
    (muS.map Prod.fst) (muS.map Prod.snd)
  let smRatio := delta_snp_array (wtS.map Prod.fst) (wtS.map Prod.snd)
    (muS.map Prod.fst) (muS.map Prod.snd)
  let smRS_G := List.zipWith (fun a b => a * b) smRatio smGstat
  (smGstat, smRatio, smRS_G, sf smRS_G smPos)

/-- State-passing embedding of calculate_empirical_cutoffs (core_bsa.py
lines 531-587) as far as it touches the variant table: the body copies
the position, (wt_ref, wt_alt) and (mu_ref, mu_alt) columns (the .copy()
calls at lines 534-536), hands only those copies to the trials, and
returns the per-trial results together with the table it leaves behind. -/
noncomputable def calculate_empirical_cutoffs_table
    (sf : List ℝ → List ℝ → List ℝ) (vcf_df : List VariantRow)
    (rands : List (List ℕ × List ℕ × List ℕ)) :
    List (List ℝ × List ℝ × List ℝ × List ℝ) × List VariantRow :=
  let vcf_df_position := vcf_df.map VariantRow.pos
  let vcf_df_wt := vcf_df.map (fun r => (r.wt_ref, r.wt_alt))
  let vcf_df_mu := vcf_df.map (fun r => (r.mu_ref, r.mu_alt))
  (rands.map (fun rd =>
    empirical_cutoff_trial sf vcf_df_position vcf_df_wt vcf_df_mu rd),
   vcf_df)

/-- C10: the empirical-cutoff computation never modifies the input
variant table: every trial operates on copies of the position and
read-depth columns, and the table the computation leaves behind is the
table it was given, row for row and column for column. -/
theorem cutoff_computation_preserves_table (sf : List ℝ → List ℝ → List ℝ)
    (vcf_df : List VariantRow) (rands : List (List ℕ × List ℕ × List ℕ)) :
    (calculate_empirical_cutoffs_table sf vcf_df rands).2 = vcf_df := rfl

/-- One row of the smoothed table as consumed by label_df_with_cutoffs. -/
structure FeatRow where
  G_S : ℚ
  RS_G : ℚ
  RS_G_yhat : ℚ
deriving Inhabited

/-- A labelled row: the three statistics plus the three 0/1 flags the
source appends. -/
structure LabeledRow where
  G_S : ℚ
  RS_G : ℚ
  RS_G_yhat : ℚ
  G_S_05p : ℕ
  RS_G_05p : ℕ
  RS_G_yhat_01p : ℕ
deriving Inhabited

/-- np.isclose with the numpy defaults rtol = 1e-05 and atol = 1e-08:
the absolute difference is within atol + rtol times the magnitude of the
second argument. -/
def np_isclose (a b : ℚ) : Prop :=
  |a - b| ≤ 1 / 100000000 + 1 / 100000 * |b|

instance (a b : ℚ) : Decidable (np_isclose a b) :=
  decidable_of_iff (|a - b| ≤ 1 / 100000000 + 1 / 100000 * |b|) Iff.rfl

/-- Row labelling of label_df_with_cutoffs (core_bsa.py lines 590-603):
each flag is 1 if np.isclose(x, cutoff) or x > cutoff, else 0. -/
def label_row (gsC rsgC rsgyC : ℚ) (r : FeatRow) : LabeledRow :=
  { G_S := r.G_S
    RS_G := r.RS_G
    RS_G_yhat := r.RS_G_yhat
    G_S_05p := if np_isclose r.G_S gsC ∨ r.G_S > gsC then 1 else 0
    RS_G_05p := if np_isclose r.RS_G rsgC ∨ r.RS_G > rsgC then 1 else 0
    RS_G_yhat_01p :=
      if np_isclose r.RS_G_yhat rsgyC ∨ r.RS_G_yhat > rsgyC then 1 else 0 }

/-- label_df_with_cutoffs over the whole table. -/
def label_df_with_cutoffs (gsC rsgC rsgyC : ℚ) (df : List FeatRow) :
    List LabeledRow :=
  df.map (label_row gsC rsgC rsgyC)

/-- Tolerant greater-or-equal as worded by claim C9: the statistic passes
when it is at least the cutoff, with near-equal values passing too. -/
def tolerant_ge (x c : ℚ) : Prop := x ≥ c ∨ np_isclose x c

theorem np_isclose_or_gt_iff (x c : ℚ) :
    (np_isclose x c ∨ x > c) ↔ tolerant_ge x c := by
  unfold tolerant_ge
  constructor
  · rintro (h | h)
    · exact Or.inr h
    · exact Or.inl (le_of_lt h)
  · rintro (h | h)
    · rcases lt_or_eq_of_le h with h2 | h2
      · exact Or.inr h2
      · left
        unfold np_isclose
        rw [← h2]
        simp
        positivity
    · exact Or.inl h

theorem flag_eq_one_iff (x c : ℚ) :
    ((if np_isclose x c ∨ x > c then (1 : ℕ) else 0) = 1 ↔
      tolerant_ge x c) := by
  by_cases h : np_isclose x c ∨ x > c
  · simp [h, (np_isclose_or_gt_iff x c).mp h]
  · simp [h, (np_isclose_or_gt_iff x c).not.mp h]

theorem flag_eq_zero_iff (x c : ℚ) :
    ((if np_isclose x c ∨ x > c then (1 : ℕ) else 0) = 0 ↔
      ¬ tolerant_ge x c) := by
  by_cases h : np_isclose x c ∨ x > c
  · simp [h, (np_isclose_or_gt_iff x c).mp h]
  · simp [h, (np_isclose_or_gt_iff x c).not.mp h]

theorem label_df_getD (gsC rsgC rsgyC : ℚ) (df : List FeatRow) (i : ℕ)
    (hi : i < df.length) :
    (label_df_with_cutoffs gsC rsgC rsgyC df).getD i default =
      label_row gsC rsgC rsgyC (df.getD i default) := by
  unfold label_df_with_cutoffs
  simp [List.getD_eq_getElem?_getD, List.getElem?_map,
    List.getElem?_eq_getElem hi]

/-- C9: for every record and every cutoff set, labelling sets G_S_05p to
1 exactly when G_S is at least gs_cutoff under the tolerant comparison
(near-equal values pass), and analogously RS_G_05p for RS_G and
RS_G_yhat_01p for RS_G_yhat; otherwise each flag is 0. -/
theorem label_df_flags (gsC rsgC rsgyC : ℚ) (df : List FeatRow) (i : ℕ)
    (hi : i < df.length) :
    (((label_df_with_cutoffs gsC rsgC rsgyC df).getD i default).G_S_05p = 1 ↔
      tolerant_ge (df.getD i default).G_S gsC) ∧
    (((label_df_with_cutoffs gsC rsgC rsgyC df).getD i default).G_S_05p = 0 ↔
      ¬ tolerant_ge (df.getD i default).G_S gsC) ∧
    (((label_df_with_cutoffs gsC rsgC rsgyC df).getD i default).RS_G_05p = 1 ↔
      tolerant_ge (df.getD i default).RS_G rsgC) ∧
    (((label_df_with_cutoffs gsC rsgC rsgyC df).getD i default).RS_G_05p = 0 ↔
      ¬ tolerant_ge (df.getD i default).RS_G rsgC) ∧
    (((label_df_with_cutoffs gsC rsgC rsgyC df).getD i
        default).RS_G_yhat_01p = 1 ↔
      tolerant_ge (df.getD i default).RS_G_yhat rsgyC) ∧
    (((label_df_with_cutoffs gsC rsgC rsgyC df).getD i
        default).RS_G_yhat_01p = 0 ↔
      ¬ tolerant_ge (df.getD i default).RS_G_yhat rsgyC) := by
  rw [label_df_getD gsC rsgC rsgyC df i hi]
  unfold label_row
  exact ⟨flag_eq_one_iff _ _, flag_eq_zero_iff _ _, flag_eq_one_iff _ _,
    flag_eq_zero_iff _ _, flag_eq_one_iff _ _, flag_eq_zero_iff _ _⟩

/-- Witness for C9 at a concrete one-row table and cutoff set. -/
theorem label_df_flags_witness :
    (((label_df_with_cutoffs 4 10 2 [⟨5, 3, 2⟩]).getD 0 default).G_S_05p = 1 ↔
      tolerant_ge (([⟨5, 3, 2⟩] : List FeatRow).getD 0 default).G_S 4) ∧
    (((label_df_with_cutoffs 4 10 2 [⟨5, 3, 2⟩]).getD 0 default).G_S_05p = 0 ↔
      ¬ tolerant_ge (([⟨5, 3, 2⟩] : List FeatRow).getD 0 default).G_S 4) ∧
    (((label_df_with_cutoffs 4 10 2 [⟨5, 3, 2⟩]).getD 0 default).RS_G_05p = 1 ↔
      tolerant_ge (([⟨5, 3, 2⟩] : List FeatRow).getD 0 default).RS_G 10) ∧
    (((label_df_with_cutoffs 4 10 2 [⟨5, 3, 2⟩]).getD 0 default).RS_G_05p = 0 ↔
      ¬ tolerant_ge (([⟨5, 3, 2⟩] : List FeatRow).getD 0 default).RS_G 10) ∧
    (((label_df_with_cutoffs 4 10 2 [⟨5, 3, 2⟩]).getD 0
        default).RS_G_yhat_01p = 1 ↔
      tolerant_ge (([⟨5, 3, 2⟩] : List FeatRow).getD 0 default).RS_G_yhat 2) ∧
    (((label_df_with_cutoffs 4 10 2 [⟨5, 3, 2⟩]).getD 0
        default).RS_G_yhat_01p = 0 ↔
      ¬ tolerant_ge (([⟨5, 3, 2⟩] : List FeatRow).getD 0 default).RS_G_yhat 2) :=
  label_df_flags 4 10 2 [⟨5, 3, 2⟩] 0 (by norm_num)

end PyAtBSA
